import Mathlib

/-!
# Hotel Reservation System — verification of the persistence layer and
# reservation coordinator

Shallow embedding of `main.py` (Hotel / Customer / Reservation classes and
the `create_reservation` / `cancel_reservation` coordinator functions).

The embedding has two layers:

* **State layer** — each backing file is modelled by the decoded list of
  records it holds (`List Hotel`, `List Customer`, `List Resv`); every
  method's load/rewrite cycle becomes a pure function from the list to the
  new list.  Python's unbounded `int` is `Int`.
* **File layer** — for the claims about loading missing, unparsable or
  ill-shaped files, the backing file itself is modelled (`BackingFile`),
  together with the JSON values it parses to (`JVal`) and the
  `cls(**record)` keyword-argument decoding step.  An uncaught Python
  exception is `Except.error`.
-/

/-- `Hotel.__init__`: name, location, rooms_available, email
(`main.py` lines 17–21). `rooms_available` is a Python `int`, hence `Int`. -/
structure Hotel where
  name : String
  location : String
  rooms_available : Int
  email : String
deriving DecidableEq, Repr

/-- `Customer.__init__`: name, email, phone (`main.py` lines 87–90). -/
structure Customer where
  name : String
  email : String
  phone : String
deriving DecidableEq, Repr

/-- `Reservation.__init__`: customer_email, hotel_name (`main.py`
lines 143–145). -/
structure Resv where
  customer_email : String
  hotel_name : String
deriving DecidableEq, Repr

/-- The three persisted collections, each the decoded contents of its
backing file (`hotels.json`, `customers.json`, `reservations.json`). -/
structure DB where
  hotels : List Hotel
  customers : List Customer
  reservations : List Resv
deriving DecidableEq, Repr

/-- `Hotel.save` (`main.py` lines 35–42): load, remove the first stored
hotel whose `name` equals `self.name` (if any), append `self`, rewrite.
`hotels.remove(existing)` deletes exactly the first name-match found by
`next(...)`, so the whole cycle is `eraseP` on the name followed by an
append. -/
def Hotel.save (h : Hotel) (hs : List Hotel) : List Hotel :=
  (hs.eraseP (fun x => x.name == h.name)) ++ [h]

/-- `Hotel.delete` (`main.py` lines 53–57): keep every stored hotel whose
name differs, rewrite. -/
def Hotel.delete (name : String) (hs : List Hotel) : List Hotel :=
  hs.filter (fun x => x.name != name)

/-- `Hotel.reserve_room` (`main.py` lines 59–65): if `rooms_available > 0`
decrement it, save, return `True`; otherwise return `False` touching
nothing.  Returns (result, updated self, updated hotels collection). -/
def Hotel.reserve_room (h : Hotel) (hs : List Hotel) :
    Bool × Hotel × List Hotel :=
  if h.rooms_available > 0 then
    let h' : Hotel := { h with rooms_available := h.rooms_available - 1 }
    (true, h', Hotel.save h' hs)
  else
    (false, h, hs)

/-- `Hotel.cancel_reservation` (`main.py` lines 67–70): unconditionally
increment `rooms_available` and save. -/
def Hotel.cancel_reservation (h : Hotel) (hs : List Hotel) :
    Hotel × List Hotel :=
  let h' : Hotel := { h with rooms_available := h.rooms_available + 1 }
  (h', Hotel.save h' hs)

/-- `Customer.save` (`main.py` lines 104–111): upsert keyed by `email`,
same shape as `Hotel.save`. -/
def Customer.save (c : Customer) (cs : List Customer) : List Customer :=
  (cs.eraseP (fun x => x.email == c.email)) ++ [c]

/-- `Customer.delete` (`main.py` lines 122–126): keep every stored
customer whose email differs, rewrite. -/
def Customer.delete (email : String) (cs : List Customer) : List Customer :=
  cs.filter (fun x => x.email != email)

/-- `Reservation.save` (`main.py` lines 159–167): append `self.__dict__`
to the loaded list, rewrite.  No key check: duplicates accumulate. -/
def Resv.save (r : Resv) (rs : List Resv) : List Resv :=
  rs ++ [r]

/-- The predicate `r['customer_email'] == email and r['hotel_name'] ==
hotel_name` used by `Reservation.cancel` and by the coordinator lookup. -/
def Resv.matches (email hotel_name : String) (r : Resv) : Bool :=
  r.customer_email == email && r.hotel_name == hotel_name

/-- `Reservation.cancel` (`main.py` lines 169–183): keep only the records
that do NOT match the (customer_email, hotel_name) pair, rewrite — every
matching record is removed in one call. -/
def Resv.cancel (r : Resv) (rs : List Resv) : List Resv :=
  rs.filter (fun x => !(Resv.matches r.customer_email r.hotel_name x))

/-- Result printed by `create_reservation` (`main.py` lines 477–502):
which of the early-return messages, or one of the two final messages. -/
inductive CreateResult where
  | customerNotFound
  | hotelNotFound
  | noRooms
  | created
  | failedCreate
deriving DecidableEq, Repr

/-- Result printed by `cancel_reservation` (`main.py` lines 505–522). -/
inductive CancelResult where
  | notFound
  | canceled
deriving DecidableEq, Repr

/-- `create_reservation` (`main.py` lines 477–502): look up the customer
by email (fail `Customer not found`), the hotel by name (fail `Hotel not
found`), fail `No available rooms` when `rooms_available <= 0`; otherwise
persist the reservation record FIRST, then run `hotel.reserve_room()`,
reporting success iff the re-check inside `reserve_room` passed. -/
def create_reservation (email hotel_name : String) (db : DB) :
    CreateResult × DB :=
  match db.customers.find? (fun c => c.email == email) with
  | none => (CreateResult.customerNotFound, db)
  | some _ =>
    match db.hotels.find? (fun h => h.name == hotel_name) with
    | none => (CreateResult.hotelNotFound, db)
    | some hotel =>
      if hotel.rooms_available ≤ 0 then
        (CreateResult.noRooms, db)
      else
        let rs' := Resv.save (Resv.mk email hotel_name) db.reservations
        let step := Hotel.reserve_room hotel db.hotels
        ((if step.1 then CreateResult.created else CreateResult.failedCreate),
         { db with reservations := rs', hotels := step.2.2 })

/-- `cancel_reservation` (`main.py` lines 505–522): look up a matching
reservation (fail `Reservation not found`), remove ALL matching records
via `Reservation.cancel`, reload hotels, and if the hotel still exists run
`hotel.cancel_reservation()` (unconditional increment); either way report
success. -/
def cancel_reservation (email hotel_name : String) (db : DB) :
    CancelResult × DB :=
  match db.reservations.find? (Resv.matches email hotel_name) with
  | none => (CancelResult.notFound, db)
  | some _ =>
    let rs' := Resv.cancel (Resv.mk email hotel_name) db.reservations
    match db.hotels.find? (fun h => h.name == hotel_name) with
    | none => (CancelResult.canceled, { db with reservations := rs' })
    | some hotel =>
      let step := Hotel.cancel_reservation hotel db.hotels
      (CancelResult.canceled, { db with reservations := rs', hotels := step.2 })

/-! ## File layer: JSON values, backing files, and the load path -/

/-- A parsed JSON value, as produced by `json.load`. -/
inductive JVal where
  | jnull
  | jbool (b : Bool)
  | jnum (n : Int)
  | jstr (s : String)
  | jarr (items : List JVal)
  | jobj (fields : List (String × JVal))
deriving Repr

/-- One backing file: missing, present but not parsable as JSON, or
parsed to a JSON value. -/
inductive BackingFile where
  | absent
  | unparsable
  | parsed (v : JVal)
deriving Repr

/-- Python keyword-argument binding for `cls(**record)`: it succeeds
exactly when the record's keys are the constructor's parameter names, each
exactly once (JSON objects have distinct keys, so this is a permutation
check). -/
def kwargsMatch : List String → List String → Bool
  | [], [] => true
  | [], _ :: _ => false
  | k :: ks, allowed =>
    if allowed.contains k then kwargsMatch ks (allowed.erase k) else false

/-- Keyword names accepted by `Hotel.__init__`. -/
def hotelKeys : List String := ["name", "location", "rooms_available", "email"]

/-- Keyword names accepted by `Customer.__init__`. -/
def customerKeys : List String := ["name", "email", "phone"]

/-- `[cls(**rec) for rec in items]` over a parsed JSON array: each element
must be an object whose key set matches the constructor's parameters,
otherwise Python raises `TypeError` — which the `except` clause of the
load methods does NOT catch (`Except.error` = uncaught exception). -/
def decodeAll (keys : List String) :
    List JVal → Except Unit (List (List (String × JVal)))
  | [] => Except.ok []
  | v :: rest =>
    match v with
    | JVal.jobj fields =>
      if kwargsMatch (fields.map Prod.fst) keys then
        match decodeAll keys rest with
        | Except.ok out => Except.ok (fields :: out)
        | Except.error e => Except.error e
      else Except.error ()
    | _ => Except.error ()

/-- `Hotel.load_hotels` at file level (`main.py` lines 23–33): missing
file → `[]`; `JSONDecodeError` (file unparsable) is caught → `[]`; a
parsed file is iterated and each element passed to `Hotel(**rec)`, whose
`TypeError` on a non-object element or a wrong key set escapes the `try`
(as does iterating a non-list JSON value). -/
def Hotel.load_hotels (f : BackingFile) :
    Except Unit (List (List (String × JVal))) :=
  match f with
  | BackingFile.absent => Except.ok []
  | BackingFile.unparsable => Except.ok []
  | BackingFile.parsed (JVal.jarr items) => decodeAll hotelKeys items
  | BackingFile.parsed _ => Except.error ()

/-- `Customer.load_customers` at file level (`main.py` lines 92–102),
same shape as `Hotel.load_hotels` with the `Customer.__init__` keys. -/
def Customer.load_customers (f : BackingFile) :
    Except Unit (List (List (String × JVal))) :=
  match f with
  | BackingFile.absent => Except.ok []
  | BackingFile.unparsable => Except.ok []
  | BackingFile.parsed (JVal.jarr items) => decodeAll customerKeys items
  | BackingFile.parsed _ => Except.error ()

/-- `self.__dict__` of a `Hotel`, as serialized by `_save_all`
(`main.py` lines 44–49). -/
def hotelFields (h : Hotel) : List (String × JVal) :=
  [("name", JVal.jstr h.name), ("location", JVal.jstr h.location),
   ("rooms_available", JVal.jnum h.rooms_available),
   ("email", JVal.jstr h.email)]

/-- The comparison `stored.name == self.name` on a loaded record: the
loaded attribute is whatever JSON value the file held, and in Python a
`str` compares equal only to an equal `str`. -/
def nameMatches (s : String) (fields : List (String × JVal)) : Bool :=
  match fields.lookup "name" with
  | some (JVal.jstr t) => t == s
  | _ => false

/-- `Hotel.save` at file level (`main.py` lines 35–49): run
`load_hotels` (propagating any uncaught exception), drop the first loaded
record whose `name` equals `self.name`, append `self.__dict__`, and write
the collection back as a JSON array of objects. -/
def Hotel.saveFile (h : Hotel) (f : BackingFile) : Except Unit BackingFile :=
  match Hotel.load_hotels f with
  | Except.error e => Except.error e
  | Except.ok recs =>
    Except.ok (BackingFile.parsed (JVal.jarr
      (((recs.eraseP (nameMatches h.name)) ++ [hotelFields h]).map
        JVal.jobj)))

/-! ## Helper lemmas about the list operations used by the store -/

theorem countP_eraseP_self {α : Type} (p : α → Bool) (l : List α) :
    (l.eraseP p).countP p = l.countP p - 1 := by
  induction l with
  | nil => simp
  | cons x xs ih =>
    by_cases hx : p x
    · simp [List.eraseP_cons, hx, List.countP_cons]
    · simp [List.eraseP_cons, hx, List.countP_cons, ih]

theorem find?_append_left_none {α : Type} {p : α → Bool} {l₁ : List α}
    (l₂ : List α) (h : l₁.find? p = none) :
    (l₁ ++ l₂).find? p = l₂.find? p := by
  induction l₁ with
  | nil => simp
  | cons x xs ih =>
    rw [List.find?_cons] at h
    by_cases hx : p x
    · simp [hx] at h
    · simp only [List.cons_append, List.find?_cons, hx]
      exact ih (by simpa [hx] using h)

theorem mem_of_mem_eraseP {α : Type} {p : α → Bool} {l : List α} {x : α}
    (h : x ∈ l.eraseP p) : x ∈ l :=
  (List.eraseP_sublist l).mem h

/-! ## Claims -/

/-- **C1.** In every state holding a customer with email `c@x.com`, exactly
one facility named `H`, that one with capacity 1, and no reservation
record for the pair, `create_reservation "c@x.com" "H"` reports success
(`Reservation created successfully`), afterwards exactly one stored
facility is named `H` and it has capacity 0, and exactly one reservation
record for the pair exists. -/
theorem create_success_path (db : DB) (h : Hotel)
    (hc : (db.customers.find? (fun c => c.email == "c@x.com")).isSome)
    (hh : db.hotels.find? (fun x => x.name == "H") = some h)
    (hcap : h.rooms_available = 1)
    (huniq : db.hotels.countP (fun x => x.name == "H") = 1)
    (hres : db.reservations.countP (Resv.matches "c@x.com" "H") = 0) :
    (create_reservation "c@x.com" "H" db).1 = CreateResult.created ∧
    (create_reservation "c@x.com" "H" db).2.reservations.countP
      (Resv.matches "c@x.com" "H") = 1 ∧
    (∃ x, (create_reservation "c@x.com" "H" db).2.hotels.find?
      (fun y => y.name == "H") = some x ∧ x.rooms_available = 0) ∧
    (create_reservation "c@x.com" "H" db).2.hotels.countP
      (fun x => x.name == "H") = 1 := by
  obtain ⟨c, hc'⟩ := Option.isSome_iff_exists.mp hc
  have hHname : h.name = "H" := by
    have hp := List.find?_some hh
    exact eq_of_beq hp
  have hckey : create_reservation "c@x.com" "H" db =
      (CreateResult.created,
       { db with
         reservations := db.reservations ++ [Resv.mk "c@x.com" "H"],
         hotels := Hotel.save { h with rooms_available := 0 } db.hotels }) := by
    simp only [create_reservation, hc', hh, Resv.save, Hotel.reserve_room, hcap]
    norm_num
  rw [hckey]
  refine ⟨rfl, ?_, ?_, ?_⟩
  · simp [List.countP_append, hres, Resv.matches]
  · refine ⟨{ h with rooms_available := 0 }, ?_, rfl⟩
    have hzero : (db.hotels.eraseP (fun x => x.name == "H")).countP
        (fun x => x.name == "H") = 0 := by
      rw [countP_eraseP_self, huniq]
    have hnone : (db.hotels.eraseP (fun x => x.name == "H")).find?
        (fun x => x.name == "H") = none := by
      rw [List.find?_eq_none]
      intro x hx
      have := List.countP_eq_zero.mp hzero x hx
      simpa using this
    simp only [Hotel.save, hHname]
    rw [find?_append_left_none _ hnone]
    simp [hHname]
  · simp only [Hotel.save, hHname]
    rw [List.countP_append, countP_eraseP_self, huniq]
    simp [hHname]

/-- Witness for `create_success_path`: the concrete success-path state of
§8 of the spec. -/
theorem create_success_path_witness :
    (create_reservation "c@x.com" "H"
      (DB.mk [Hotel.mk "H" "L" 1 "h@x.com"]
             [Customer.mk "C" "c@x.com" "0123456789"] [])).1 =
      CreateResult.created :=
  (create_success_path
    (DB.mk [Hotel.mk "H" "L" 1 "h@x.com"]
           [Customer.mk "C" "c@x.com" "0123456789"] [])
    (Hotel.mk "H" "L" 1 "h@x.com")
    (by decide) (by decide) (by decide) (by decide) (by decide)).1

/-- **C2.** Each not-found / no-capacity early return of the two
coordinator operations returns the corresponding failure and leaves the
whole state (all three collections) untouched: unknown customer email,
unknown facility name, facility capacity `<= 0`, and no matching
reservation record. -/
theorem failure_causes_no_mutation (db : DB) (email hotel_name : String) :
    (db.customers.find? (fun c => c.email == email) = none →
      create_reservation email hotel_name db =
        (CreateResult.customerNotFound, db)) ∧
    (∀ c, db.customers.find? (fun x => x.email == email) = some c →
      db.hotels.find? (fun x => x.name == hotel_name) = none →
      create_reservation email hotel_name db =
        (CreateResult.hotelNotFound, db)) ∧
    (∀ c h, db.customers.find? (fun x => x.email == email) = some c →
      db.hotels.find? (fun x => x.name == hotel_name) = some h →
      h.rooms_available ≤ 0 →
      create_reservation email hotel_name db = (CreateResult.noRooms, db)) ∧
    (db.reservations.find? (Resv.matches email hotel_name) = none →
      cancel_reservation email hotel_name db = (CancelResult.notFound, db)) := by
  refine ⟨?_, ?_, ?_, ?_⟩
  · intro hnone
    simp [create_reservation, hnone]
  · intro c hc hnone
    simp [create_reservation, hc, hnone]
  · intro c h hc hh hle
    simp [create_reservation, hc, hh, hle]
  · intro hnone
    simp [cancel_reservation, hnone]

/-- Witness for `failure_causes_no_mutation`: all four early returns hit
at concrete states. -/
theorem failure_causes_no_mutation_witness :
    create_reservation "c@x.com" "H" (DB.mk [] [] []) =
      (CreateResult.customerNotFound, DB.mk [] [] []) ∧
    create_reservation "c@x.com" "H"
      (DB.mk [] [Customer.mk "C" "c@x.com" "0123456789"] []) =
      (CreateResult.hotelNotFound,
       DB.mk [] [Customer.mk "C" "c@x.com" "0123456789"] []) ∧
    create_reservation "c@x.com" "H"
      (DB.mk [Hotel.mk "H" "L" 0 "h@x.com"]
             [Customer.mk "C" "c@x.com" "0123456789"] []) =
      (CreateResult.noRooms,
       DB.mk [Hotel.mk "H" "L" 0 "h@x.com"]
             [Customer.mk "C" "c@x.com" "0123456789"] []) ∧
    cancel_reservation "c@x.com" "H" (DB.mk [] [] []) =
      (CancelResult.notFound, DB.mk [] [] []) :=
  ⟨(failure_causes_no_mutation (DB.mk [] [] []) "c@x.com" "H").1 (by decide),
   (failure_causes_no_mutation
      (DB.mk [] [Customer.mk "C" "c@x.com" "0123456789"] [])
      "c@x.com" "H").2.1 (Customer.mk "C" "c@x.com" "0123456789")
      (by decide) (by decide),
   (failure_causes_no_mutation
      (DB.mk [Hotel.mk "H" "L" 0 "h@x.com"]
             [Customer.mk "C" "c@x.com" "0123456789"] [])
      "c@x.com" "H").2.2.1 (Customer.mk "C" "c@x.com" "0123456789")
      (Hotel.mk "H" "L" 0 "h@x.com") (by decide) (by decide) (by decide),
   (failure_causes_no_mutation (DB.mk [] [] []) "c@x.com" "H").2.2.2
      (by decide)⟩

/-- Every stored facility record has non-negative capacity. -/
def nonnegAll (hs : List Hotel) : Prop :=
  ∀ h ∈ hs, 0 ≤ h.rooms_available

instance (hs : List Hotel) : Decidable (nonnegAll hs) :=
  List.decidableBAll _ hs

theorem nonnegAll_save {h : Hotel} {hs : List Hotel}
    (hh : 0 ≤ h.rooms_available) (hhs : nonnegAll hs) :
    nonnegAll (Hotel.save h hs) := by
  intro x hx
  rcases List.mem_append.mp hx with hx' | hx'
  · exact hhs x (mem_of_mem_eraseP hx')
  · rcases List.mem_singleton.mp hx' with rfl
    exact hh

/-- **C3.** `capacity ≥ 0` is preserved by every core write: `save` of a
non-negative facility, `delete`, `create_reservation` and
`cancel_reservation` keep every stored capacity non-negative, and the
reserve step refuses to decrement (returns `False`, writes nothing) when
capacity is not positive. -/
theorem capacity_nonneg_invariant (h : Hotel) (hs : List Hotel)
    (name email hotel_name : String) (db : DB) :
    (0 ≤ h.rooms_available → nonnegAll hs → nonnegAll (Hotel.save h hs)) ∧
    (nonnegAll hs → nonnegAll (Hotel.delete name hs)) ∧
    (nonnegAll db.hotels →
      nonnegAll (create_reservation email hotel_name db).2.hotels) ∧
    (nonnegAll db.hotels →
      nonnegAll (cancel_reservation email hotel_name db).2.hotels) ∧
    (h.rooms_available ≤ 0 → Hotel.reserve_room h hs = (false, h, hs)) := by
  refine ⟨fun a b => nonnegAll_save a b, ?_, ?_, ?_, ?_⟩
  · intro hhs x hx
    exact hhs x (List.mem_of_mem_filter hx)
  · intro hdb
    rcases hc : db.customers.find? (fun c => c.email == email) with _ | c
    · simpa [create_reservation, hc] using hdb
    rcases hh : db.hotels.find? (fun x => x.name == hotel_name) with _ | hotel
    · simpa [create_reservation, hc, hh] using hdb
    by_cases hle : hotel.rooms_available ≤ 0
    · simpa [create_reservation, hc, hh, hle] using hdb
    · have hpos : 0 < hotel.rooms_available := lt_of_not_le hle
      have : (create_reservation email hotel_name db).2.hotels =
          Hotel.save { hotel with
            rooms_available := hotel.rooms_available - 1 } db.hotels := by
        simp [create_reservation, hc, hh, hle, Hotel.reserve_room, hpos]
      rw [this]
      exact nonnegAll_save
        (by show (0:Int) ≤ hotel.rooms_available - 1; omega) hdb
  · intro hdb
    rcases hr : db.reservations.find? (Resv.matches email hotel_name) with _ | r
    · simpa [cancel_reservation, hr] using hdb
    rcases hh : db.hotels.find? (fun x => x.name == hotel_name) with _ | hotel
    · simpa [cancel_reservation, hr, hh] using hdb
    · have hmem : hotel ∈ db.hotels := List.mem_of_find?_eq_some hh
      have := hdb hotel hmem
      have : (cancel_reservation email hotel_name db).2.hotels =
          Hotel.save { hotel with
            rooms_available := hotel.rooms_available + 1 } db.hotels := by
        simp [cancel_reservation, hr, hh, Hotel.cancel_reservation]
      rw [this]
      exact nonnegAll_save
        (by show (0:Int) ≤ hotel.rooms_available + 1
            have := hdb hotel hmem; omega) hdb
  · intro hle
    simp [Hotel.reserve_room, not_lt.mpr hle]

/-- Witness for `capacity_nonneg_invariant`: hypotheses discharged at a
zero-capacity facility and an empty state. -/
theorem capacity_nonneg_invariant_witness :
    nonnegAll (Hotel.save (Hotel.mk "H" "L" 0 "h@x.com") []) ∧
    Hotel.reserve_room (Hotel.mk "H" "L" 0 "h@x.com") [] =
      (false, Hotel.mk "H" "L" 0 "h@x.com", []) :=
  ⟨(capacity_nonneg_invariant (Hotel.mk "H" "L" 0 "h@x.com") [] "H"
      "c@x.com" "H" (DB.mk [] [] [])).1 (by decide) (by decide),
   (capacity_nonneg_invariant (Hotel.mk "H" "L" 0 "h@x.com") [] "H"
      "c@x.com" "H" (DB.mk [] [] [])).2.2.2.2 (by decide)⟩

/-- Upserting `h'` (whose name is `n`) into a collection holding exactly
one record named `n` leaves `h'` as the unique record found under `n`. -/
theorem save_unique_find {hs : List Hotel} {h' : Hotel} {n : String}
    (hn : h'.name = n) (huniq : hs.countP (fun x => x.name == n) = 1) :
    (Hotel.save h' hs).find? (fun x => x.name == n) = some h' ∧
    (Hotel.save h' hs).countP (fun x => x.name == n) = 1 := by
  have hzero : (hs.eraseP (fun x => x.name == n)).countP
      (fun x => x.name == n) = 0 := by
    rw [countP_eraseP_self, huniq]
  have hnone : (hs.eraseP (fun x => x.name == n)).find?
      (fun x => x.name == n) = none := by
    rw [List.find?_eq_none]
    intro x hx
    simpa using List.countP_eq_zero.mp hzero x hx
  constructor
  · simp only [Hotel.save, hn]
    rw [find?_append_left_none _ hnone]
    simp [hn]
  · simp only [Hotel.save, hn]
    rw [List.countP_append, hzero]
    simp [hn]

/-- **C4.** Whenever a matching reservation record exists for the pair and
exactly one facility carries the requested name, `cancel_reservation`
succeeds and persists that facility with its capacity incremented by
exactly 1 — with no upper-bound check, so nothing ties the new value to
any original capacity. -/
theorem cancel_increments_capacity (db : DB) (email hotel_name : String)
    (r : Resv) (h : Hotel)
    (hr : db.reservations.find? (Resv.matches email hotel_name) = some r)
    (hh : db.hotels.find? (fun x => x.name == hotel_name) = some h)
    (huniq : db.hotels.countP (fun x => x.name == hotel_name) = 1) :
    (cancel_reservation email hotel_name db).1 = CancelResult.canceled ∧
    (cancel_reservation email hotel_name db).2.hotels.find?
      (fun x => x.name == hotel_name) =
      some { h with rooms_available := h.rooms_available + 1 } ∧
    (cancel_reservation email hotel_name db).2.hotels.countP
      (fun x => x.name == hotel_name) = 1 := by
  have hp := List.find?_some hh
  have hname : h.name = hotel_name := eq_of_beq hp
  have hkey : (cancel_reservation email hotel_name db).2.hotels =
      Hotel.save { h with rooms_available := h.rooms_available + 1 }
        db.hotels := by
    simp [cancel_reservation, hr, hh, Hotel.cancel_reservation]
  have hsave := @save_unique_find db.hotels
    { h with rooms_available := h.rooms_available + 1 } hotel_name
    (by simpa using hname) huniq
  refine ⟨?_, ?_, ?_⟩
  · simp [cancel_reservation, hr, hh]
  · rw [hkey]; exact hsave.1
  · rw [hkey]; exact hsave.2

/-- Witness for `cancel_increments_capacity`: a state holding a
reservation record with no matching prior create; the facility's original
capacity 5 is driven to 6. -/
theorem cancel_increments_capacity_witness :
    (cancel_reservation "c@x.com" "H"
      (DB.mk [Hotel.mk "H" "L" 5 "h@x.com"] []
             [Resv.mk "c@x.com" "H"])).2.hotels.find?
      (fun x => x.name == "H") = some (Hotel.mk "H" "L" 6 "h@x.com") :=
  (cancel_increments_capacity
    (DB.mk [Hotel.mk "H" "L" 5 "h@x.com"] [] [Resv.mk "c@x.com" "H"])
    "c@x.com" "H" (Resv.mk "c@x.com" "H") (Hotel.mk "H" "L" 5 "h@x.com")
    (by decide) (by decide) (by decide)).2.1

/-- The §8 success-path start state: one customer `c@x.com`, one facility
`H` with capacity 1, no reservations. -/
def db0 : DB :=
  DB.mk [Hotel.mk "H" "L" 1 "h@x.com"]
        [Customer.mk "C" "c@x.com" "0123456789"] []

/-- The state after the successful `create_reservation "c@x.com" "H"`
on `db0`: facility `H` at capacity 0 and one reservation record. -/
def db1 : DB := (create_reservation "c@x.com" "H" db0).2

/-- **C5.** From the success-path state (`db1`),
`cancel_reservation "c@x.com" "H"` succeeds, removes the reservation
record, and the stored facility `H` has capacity 1 afterwards. -/
theorem cancel_restores_success_path :
    (cancel_reservation "c@x.com" "H" db1).1 = CancelResult.canceled ∧
    (cancel_reservation "c@x.com" "H" db1).2.reservations = [] ∧
    (cancel_reservation "c@x.com" "H" db1).2.hotels.find?
      (fun x => x.name == "H") = some (Hotel.mk "H" "L" 1 "h@x.com") := by
  decide

/-- **C6.** If `N ≥ 1` reservation records match the pair and exactly one
facility carries the requested name, one `cancel_reservation` call removes
all `N` matching records while restoring exactly one unit of capacity. -/
theorem cancel_removes_all_matching (db : DB) (email hotel_name : String)
    (N : Nat) (h : Hotel)
    (hN : 1 ≤ N)
    (hcount : db.reservations.countP (Resv.matches email hotel_name) = N)
    (hh : db.hotels.find? (fun x => x.name == hotel_name) = some h)
    (huniq : db.hotels.countP (fun x => x.name == hotel_name) = 1) :
    (cancel_reservation email hotel_name db).1 = CancelResult.canceled ∧
    (cancel_reservation email hotel_name db).2.reservations.countP
      (Resv.matches email hotel_name) = 0 ∧
    (cancel_reservation email hotel_name db).2.hotels.find?
      (fun x => x.name == hotel_name) =
      some { h with rooms_available := h.rooms_available + 1 } := by
  have hex : ∃ x ∈ db.reservations, Resv.matches email hotel_name x := by
    apply List.countP_pos_iff.mp
    rw [hcount]; omega
  obtain ⟨r, hr⟩ := Option.isSome_iff_exists.mp (List.find?_isSome.mpr hex)
  have hp := List.find?_some hh
  have hname : h.name = hotel_name := eq_of_beq hp
  have hkeyres : (cancel_reservation email hotel_name db).2.reservations =
      Resv.cancel (Resv.mk email hotel_name) db.reservations := by
    simp [cancel_reservation, hr, hh]
  have hkeyhot : (cancel_reservation email hotel_name db).2.hotels =
      Hotel.save { h with rooms_available := h.rooms_available + 1 }
        db.hotels := by
    simp [cancel_reservation, hr, hh, Hotel.cancel_reservation]
  refine ⟨by simp [cancel_reservation, hr, hh], ?_, ?_⟩
  · rw [hkeyres]
    apply List.countP_eq_zero.mpr
    intro x hx
    have hmem := List.mem_filter.mp hx
    simpa [Resv.cancel] using hmem.2
  · rw [hkeyhot]
    exact (save_unique_find (by simpa using hname) huniq).1

/-- Witness for `cancel_removes_all_matching`: three duplicate records
for the pair, all removed by one cancel, capacity 0 → 1. -/
theorem cancel_removes_all_matching_witness :
    (cancel_reservation "c@x.com" "H"
      (DB.mk [Hotel.mk "H" "L" 0 "h@x.com"] []
        [Resv.mk "c@x.com" "H", Resv.mk "c@x.com" "H",
         Resv.mk "c@x.com" "H"])).2.reservations.countP
      (Resv.matches "c@x.com" "H") = 0 :=
  (cancel_removes_all_matching
    (DB.mk [Hotel.mk "H" "L" 0 "h@x.com"] []
      [Resv.mk "c@x.com" "H", Resv.mk "c@x.com" "H", Resv.mk "c@x.com" "H"])
    "c@x.com" "H" 3 (Hotel.mk "H" "L" 0 "h@x.com")
    (by decide) (by decide) (by decide) (by decide)).2.1

/-- **C7.** Upsert round-trips — the record just saved is among the loaded
collection, field for field — and is last-write-wins: in any state where
`"A"` names at most one facility (the unique-key well-formedness that
upsert maintains), saving `Facility("A", capacity 5)` then
`Facility("A", capacity 3)` leaves exactly one stored facility named `"A"`,
and it is the later record (capacity 3) in all fields. -/
theorem upsert_roundtrip_lww (hs : List Hotel) (cs : List Customer)
    (h : Hotel) (c : Customer) (loc5 em5 loc3 em3 : String) :
    h ∈ Hotel.save h hs ∧
    c ∈ Customer.save c cs ∧
    (hs.countP (fun x => x.name == "A") ≤ 1 →
      (Hotel.save (Hotel.mk "A" loc3 3 em3)
        (Hotel.save (Hotel.mk "A" loc5 5 em5) hs)).countP
        (fun x => x.name == "A") = 1 ∧
      (Hotel.save (Hotel.mk "A" loc3 3 em3)
        (Hotel.save (Hotel.mk "A" loc5 5 em5) hs)).find?
        (fun x => x.name == "A") = some (Hotel.mk "A" loc3 3 em3)) := by
  refine ⟨by simp [Hotel.save], by simp [Customer.save], ?_⟩
  intro hle
  have hcount5 : (Hotel.save (Hotel.mk "A" loc5 5 em5) hs).countP
      (fun x => x.name == "A") = 1 := by
    have hone : ([Hotel.mk "A" loc5 5 em5].countP
        (fun x => x.name == "A")) = 1 := by simp
    simp only [Hotel.save]
    rw [List.countP_append, countP_eraseP_self, hone]
    omega
  have := @save_unique_find (Hotel.save (Hotel.mk "A" loc5 5 em5) hs)
    (Hotel.mk "A" loc3 3 em3) "A" rfl hcount5
  exact ⟨this.2, this.1⟩

/-- Witness for `upsert_roundtrip_lww`: both saves from the empty
collection. -/
theorem upsert_roundtrip_lww_witness :
    (Hotel.save (Hotel.mk "A" "L" 3 "a@x.com")
      (Hotel.save (Hotel.mk "A" "L" 5 "a@x.com") [])).find?
      (fun x => x.name == "A") = some (Hotel.mk "A" "L" 3 "a@x.com") :=
  ((upsert_roundtrip_lww [] [] (Hotel.mk "A" "L" 3 "a@x.com")
    (Customer.mk "C" "c@x.com" "0123456789") "L" "a@x.com" "L"
    "a@x.com").2.2 (by decide)).2

/-- **C8.** `delete` removes every record whose key matches, keeps every
record whose key differs, and is a no-op when the key is absent — for both
the facility store (keyed by name) and the customer store (keyed by
email). -/
theorem delete_removes_all_else_noop (hs : List Hotel) (cs : List Customer)
    (n e : String) :
    (∀ x ∈ Hotel.delete n hs, x.name ≠ n) ∧
    (∀ x ∈ hs, x.name ≠ n → x ∈ Hotel.delete n hs) ∧
    ((∀ x ∈ hs, x.name ≠ n) → Hotel.delete n hs = hs) ∧
    (∀ x ∈ Customer.delete e cs, x.email ≠ e) ∧
    (∀ x ∈ cs, x.email ≠ e → x ∈ Customer.delete e cs) ∧
    ((∀ x ∈ cs, x.email ≠ e) → Customer.delete e cs = cs) := by
  refine ⟨?_, ?_, ?_, ?_, ?_, ?_⟩
  · intro x hx
    simpa using (List.mem_filter.mp hx).2
  · intro x hx hne
    exact List.mem_filter.mpr ⟨hx, by simpa using hne⟩
  · intro hall
    apply List.filter_eq_self.mpr
    intro x hx
    simpa using hall x hx
  · intro x hx
    simpa using (List.mem_filter.mp hx).2
  · intro x hx hne
    exact List.mem_filter.mpr ⟨hx, by simpa using hne⟩
  · intro hall
    apply List.filter_eq_self.mpr
    intro x hx
    simpa using hall x hx

/-- Witness for `delete_removes_all_else_noop`: deleting absent keys from
one-record collections changes nothing. -/
theorem delete_removes_all_else_noop_witness :
    Hotel.delete "B" [Hotel.mk "A" "L" 5 "a@x.com"] =
      [Hotel.mk "A" "L" 5 "a@x.com"] ∧
    Customer.delete "b@x.com" [Customer.mk "C" "c@x.com" "0123456789"] =
      [Customer.mk "C" "c@x.com" "0123456789"] :=
  ⟨(delete_removes_all_else_noop [Hotel.mk "A" "L" 5 "a@x.com"]
      [Customer.mk "C" "c@x.com" "0123456789"] "B" "b@x.com").2.2.1
      (by decide),
   (delete_removes_all_else_noop [Hotel.mk "A" "L" 5 "a@x.com"]
      [Customer.mk "C" "c@x.com" "0123456789"] "B" "b@x.com").2.2.2.2.2
      (by decide)⟩

/-- **C9.** Load returns an empty collection — not an error — both when
the backing file is missing and when it exists but cannot be parsed; no
exception reaches the caller.  A save performed on top of the unparsable
file still succeeds, and the file it writes is well-formed: loading it
back yields exactly the one saved record. -/
theorem load_recovery_after_corruption (h : Hotel) :
    Hotel.load_hotels BackingFile.absent = Except.ok [] ∧
    Hotel.load_hotels BackingFile.unparsable = Except.ok [] ∧
    Customer.load_customers BackingFile.absent = Except.ok [] ∧
    Customer.load_customers BackingFile.unparsable = Except.ok [] ∧
    Hotel.saveFile h BackingFile.unparsable =
      Except.ok (BackingFile.parsed (JVal.jarr [JVal.jobj (hotelFields h)])) ∧
    Hotel.load_hotels
      (BackingFile.parsed (JVal.jarr [JVal.jobj (hotelFields h)])) =
      Except.ok [hotelFields h] := by
  refine ⟨rfl, rfl, rfl, rfl, rfl, ?_⟩
  simp [Hotel.load_hotels, decodeAll, hotelFields, hotelKeys, kwargsMatch]

/-- **C10.** The silent-recovery fallback covers only parse and I/O
failures: a backing file holding syntactically valid JSON that is a list
of objects with a missing key (hotels) or an extra key (customers) makes
the load raise an uncaught `TypeError` instead of returning an empty
collection. -/
theorem load_illshaped_record_raises :
    Hotel.load_hotels
      (BackingFile.parsed (JVal.jarr [JVal.jobj [("name", JVal.jstr "H")]]))
      = Except.error () ∧
    Customer.load_customers
      (BackingFile.parsed (JVal.jarr [JVal.jobj
        [("name", JVal.jstr "C"), ("email", JVal.jstr "c@x.com"),
         ("phone", JVal.jstr "0123456789"), ("vip", JVal.jbool true)]]))
      = Except.error () := by
  constructor
  · rfl
  · rfl
